import Mathlib

/-!
Verification of the cache/memory benchmark (`src/benchmark.cpp`) against its
natural-language specification.

The development shallowly embeds the parts of the program the claims speak
about:

* the command-line parser `parse` (lines 61-103), including the behaviour of
  `std::stoi` / `std::stoull` on the value strings of the numeric flags;
* the result reporter `printRow` (lines 235-251);
* the byte ranges touched by the four probes `bw_read_gbs`, `bw_write_gbs`,
  `bw_copy_gbs`, `latency_ns`;
* the final buffer contents produced by the write probe `bw_write_gbs`
  (lines 132-150);
* the cyclic pointer chain built by the latency probe `latency_ns`
  (lines 168-204), together with the `mt19937_64`-seeded shuffle that
  produces its slot permutation.

Machine integers are modelled as `Nat`/`Int`.  `size_t` arithmetic in the
probes cannot overflow for any value the program can produce (the stride is
rounded up to a multiple of 8 before the probes run, so `nodes * 8` is at
most `bytes`), so those computations are modelled as exact `Nat`
arithmetic.  The one `size_t` computation that can wrap is the parse-time
stride round-up (line 94), whose addition `stride + sizeof(void*) - 1`
overflows for strides at or above `2^64 - 7`; it is modelled with an
explicit `% 2^64`.  `double` values reaching the reporter are modelled as
rationals; every constant appearing in the reporter claims is exactly
representable.
-/

namespace CacheBench

/-- The native pointer size (`sizeof(void*)`): the program is built for a
64-bit platform, as assumed by the spec's own examples ("8-byte pointers"). -/
def ptrSize : Nat := 8

/-! ## Model of `std::stoi` / `std::stoull` on the flag value strings

`parse` converts flag values with `stoi(argv[++i])` and `stoull(argv[++i])`.
Both skip leading whitespace, accept one optional sign, then require at
least one decimal digit; digits are consumed greedily and trailing garbage
is ignored.  If there is no digit an `std::invalid_argument` is thrown; if
the value is out of range an `std::out_of_range` is thrown.  Neither
exception is caught anywhere in the program, so both conversion failures
are modelled as `none` (the distinction does not matter: either exception
escapes `main` identically). -/

/-- Characters accepted by `isspace` in the default locale. -/
def isSpaceChar (c : Char) : Bool :=
  c = ' ' || c = '\t' || c = '\n' || c = '\x0b' || c = '\x0c' || c = '\r'

/-- Greedily consume leading decimal digits, accumulating their value. -/
def digitsAcc : Nat → List Char → Nat
  | acc, [] => acc
  | acc, c :: cs => if c.isDigit then digitsAcc (acc * 10 + (c.toNat - 48)) cs else acc

/-- Shared scanning phase of `strtol`-family conversions: whitespace, one
optional sign, then at least one digit.  Returns the sign and the magnitude,
or `none` when no conversion can be performed (`std::invalid_argument`). -/
def cppScanNum (s : String) : Option (Bool × Nat) :=
  let cs := s.data.dropWhile (fun c => isSpaceChar c)
  let signAndRest : Bool × List Char :=
    match cs with
    | '-' :: t => (true, t)
    | '+' :: t => (false, t)
    | t => (false, t)
  match signAndRest.2 with
  | [] => none
  | c :: _ =>
      if c.isDigit then some (signAndRest.1, digitsAcc 0 signAndRest.2) else none

/-- `std::stoi`: result must fit in a 32-bit `int`, otherwise
`std::out_of_range` (modelled as `none`, see above). -/
def cppStoi (s : String) : Option Int :=
  (cppScanNum s).bind fun p =>
    let v : Int := if p.1 then -(p.2 : Int) else (p.2 : Int)
    if -2147483648 ≤ v ∧ v ≤ 2147483647 then some v else none

/-- `std::stoull`: the magnitude must fit in 64 bits (else
`std::out_of_range`); a negative input wraps modulo `2^64` as `strtoull`
specifies. -/
def cppStoull (s : String) : Option Nat :=
  (cppScanNum s).bind fun p =>
    if p.2 ≤ 18446744073709551615 then
      some (if p.1 then (18446744073709551616 - p.2 % 18446744073709551616) % 18446744073709551616 else p.2)
    else none

/-! ## The configuration record and the parser -/

/-- `struct Args` (lines 40-49).  `iters` is a C++ `int`, the sizes are
`size_t`. -/
structure Args where
  iters : Int
  stride : Nat
  l1KB : Nat
  l2KB : Nat
  l3KB : Nat
  memKB : Nat
  quick : Bool
deriving DecidableEq, Repr

/-- The default-initialised `Args` (lines 42-48). -/
def defaultArgs : Args :=
  { iters := 3, stride := 64, l1KB := 32, l2KB := 512, l3KB := 8192
    memKB := 131072, quick := false }

/-- Outcome of the argument loop of `parse` (lines 63-89).
`usageFalse`: some branch printed usage and returned `false` (covers a
missing value via `need`, `-h`/`--help`, and an unknown argument).
`exn`: `stoi`/`stoull` threw; nothing catches the exception, so it
propagates out of `parse` and `main` and the process is terminated by
`std::terminate` (abnormal termination, not a normal exit). -/
inductive LoopOut where
  | ok (a : Args)
  | usageFalse
  | exn
deriving DecidableEq, Repr

/-- The argument loop of `parse` (lines 63-89), one constructor argument per
`argv[i]` past the program name.  A numeric flag first checks `need(1)`
(fails exactly when it is the last argument), then converts the next
argument and skips it. -/
def parseLoop (a : Args) : List String → LoopOut
  | [] => .ok a
  | s :: rest =>
    if s = "--iters" then
      match rest with
      | [] => .usageFalse
      | v :: rest2 =>
        match cppStoi v with
        | none => .exn
        | some n => parseLoop { a with iters := n } rest2
    else if s = "--stride" then
      match rest with
      | [] => .usageFalse
      | v :: rest2 =>
        match cppStoull v with
        | none => .exn
        | some n => parseLoop { a with stride := n } rest2
    else if s = "--l1KB" then
      match rest with
      | [] => .usageFalse
      | v :: rest2 =>
        match cppStoull v with
        | none => .exn
        | some n => parseLoop { a with l1KB := n } rest2
    else if s = "--l2KB" then
      match rest with
      | [] => .usageFalse
      | v :: rest2 =>
        match cppStoull v with
        | none => .exn
        | some n => parseLoop { a with l2KB := n } rest2
    else if s = "--l3KB" then
      match rest with
      | [] => .usageFalse
      | v :: rest2 =>
        match cppStoull v with
        | none => .exn
        | some n => parseLoop { a with l3KB := n } rest2
    else if s = "--memKB" then
      match rest with
      | [] => .usageFalse
      | v :: rest2 =>
        match cppStoull v with
        | none => .exn
        | some n => parseLoop { a with memKB := n } rest2
    else if s = "--quick" then parseLoop { a with quick := true } rest
    else if s = "-h" ∨ s = "--help" then .usageFalse
    else .usageFalse

/-- Stride fix-up after the loop (lines 91-95): `0` becomes
`sizeof(void*)`, a non-multiple is rounded up to the next multiple of
`sizeof(void*)`.  The round-up is `size_t` arithmetic: the addition
`stride + sizeof(void*) - 1` on line 94 wraps modulo `2^64` (the following
division and multiplication cannot wrap), so strides at or above
`2^64 - 7` — all of which are non-multiples, since `2^64` is divisible by
8 — round to an effective stride of 0. -/
def postStride (s : Nat) : Nat :=
  let s1 := if s = 0 then ptrSize else s
  if s1 % ptrSize ≠ 0 then
    ((s1 + ptrSize - 1) % 18446744073709551616 / ptrSize) * ptrSize
  else s1

/-- Post-processing after the loop (lines 91-100): stride fix-up, then the
quick-mode overrides. -/
def postProc (a : Args) : Args :=
  let a1 := { a with stride := postStride a.stride }
  if a1.quick then { a1 with iters := 2, memKB := min a1.memKB 65536 } else a1

/-- Overall outcome of `parse` as observed by `main` (lines 256-259):
`success` reaches the allocation and measurement phase; `failExit1` is
`parse` returning `false`, upon which `main` returns 1 before any
allocation; `exn` is an uncaught conversion exception, which terminates the
process abnormally before any allocation. -/
inductive POut where
  | success (a : Args)
  | failExit1
  | exn
deriving DecidableEq, Repr

/-- `parse` (lines 61-103): run the loop on the arguments after the program
name, then apply the post-processing on the success path. -/
def parseArgs (l : List String) : POut :=
  match parseLoop defaultArgs l with
  | .ok a => .success (postProc a)
  | .usageFalse => .failExit1
  | .exn => .exn

/-- What `main` (lines 256-299) does before touching memory, keyed by the
parse outcome: only a successful parse ever reaches `alloc_aligned`. -/
inductive MainOut where
  | ranBenchmark (a : Args)
  | exit1NoAlloc
  | abortNoAlloc
deriving DecidableEq, Repr

/-- The prefix of `main` that decides whether allocation/measurement is ever
reached. -/
def mainOutcome (l : List String) : MainOut :=
  match parseArgs l with
  | .success a => .ranBenchmark a
  | .failExit1 => .exit1NoAlloc
  | .exn => .abortNoAlloc

/-- The six flags whose value goes through `stoi`/`stoull`. -/
def numFlags : List String :=
  ["--iters", "--stride", "--l1KB", "--l2KB", "--l3KB", "--memKB"]

/-- Does the value string `v` convert successfully for flag `f`?
(`--iters` uses `stoi`, the other numeric flags use `stoull`.) -/
def numValueParses (f v : String) : Bool :=
  if f = "--iters" then (cppStoi v).isSome else (cppStoull v).isSome

/-- Every value string following an occurrence of `--iters` that converts at
all converts to a value `≥ 1`.  (An unconvertible value makes the parse
throw, so it is irrelevant here.) -/
def goodIters : List String → Bool
  | [] => true
  | ["--iters"] => true
  | "--iters" :: v :: rest =>
      (match cppStoi v with
       | some n => decide (1 ≤ n)
       | none => true) && goodIters (v :: rest)
  | _ :: rest => goodIters rest

/-! ## The result reporter

`printRow` (lines 235-251) receives a `Row` whose bandwidth fields were
produced by `bw_read_gbs` / `bw_write_gbs` / `bw_copy_gbs`, i.e. values in
GB/s (`bytes / t / 1e9`, line 129).  Its local `fmt` lambda (lines 237-243)
chooses the unit and the printed magnitude.  Doubles are modelled as
rationals; every constant of interest here is exactly representable. -/

/-- The unit string and the magnitude printed by `fmt`
(`bool gb = v >= 1000.0; double vv = gb ? v : v * 1000.0;`, lines 239-241).
The input `v` is in GB/s. -/
def fmtBW (v : ℚ) : ℚ × String :=
  if 1000 ≤ v then (v, "GB/s") else (v * 1000, "MB/s")

/-! ## Byte ranges touched by the probes

Each probe's loads/stores are recorded as a list of `(offset, width)`
pairs, byte offsets relative to the start of the buffer slice handed to the
probe.  An access `(o, w)` touches bytes `o` through `o + w - 1`. -/

/-- All accesses of an access list stay within byte offsets
`0 .. B - 1`. -/
abbrev inBounds (B : Nat) (l : List (Nat × Nat)) : Prop :=
  ∀ p ∈ l, p.1 + p.2 ≤ B

/-- `bw_read_gbs` (lines 108-130): the buffer is read as `bytes / 8`
doubles; the warm-up loop reads every 8th element
(`i += 64 / sizeof(double)`), the timed loop reads every element. -/
def bwReadTouched (bytes : Nat) : List (Nat × Nat) :=
  let els := bytes / 8
  ((List.range els).filter (fun i => i % 8 = 0) ++ List.range els).map (fun i => (8 * i, 8))

/-- `bw_write_gbs` (lines 132-150): warm-up writes every 8th element, the
timed loop writes every element. -/
def bwWriteTouched (bytes : Nat) : List (Nat × Nat) :=
  let els := bytes / 8
  ((List.range els).filter (fun i => i % 8 = 0) ++ List.range els).map (fun i => (8 * i, 8))

/-- `bw_copy_gbs` (lines 152-166): `memcpy(dst, src, bytes)` touches bytes
`0 .. bytes - 1` of each buffer. -/
def bwCopyTouched (bytes : Nat) : List (Nat × Nat) :=
  [(0, bytes)]

/-- `size_t nodes = max<size_t>(2, bytes / stride);` (line 170). -/
def latNodes (bytes stride : Nat) : Nat :=
  max 2 (bytes / stride)

/-- `uint64_t derefs = min<uint64_t>(150000, max<uint64_t>(40000, nodes * 8));`
(line 193). -/
def latDerefs (bytes stride : Nat) : Nat :=
  min 150000 (max 40000 (latNodes bytes stride * 8))

/-- The spec's `clamp(x, lo, hi)`, for comparison with `latDerefs`. -/
def clampSpec (lo hi x : Nat) : Nat :=
  max lo (min x hi)

/-- `latency_ns` (lines 168-204) writes one pointer
(`*slot = buf + idx[i + 1] * stride`, lines 177-182) into slot `idx[i]` for
every `i`, and the warm-up and timed traversals read the same slots.  `idx`
is a permutation of `[0, nodes)`, so the touched slots are exactly the
byte ranges `[k * stride, k * stride + sizeof(void*))` for `k < nodes`. -/
def latTouched (bytes stride : Nat) : List (Nat × Nat) :=
  (List.range (latNodes bytes stride)).map (fun k => (k * stride, ptrSize))

/-! ## The write probe's effect on the buffer

`bw_write_gbs` (lines 132-150) views the buffer as `els = bytes / 8`
doubles and stores `(double)i` into element `i`.  The element type and the
int-to-double cast are abstracted into an arbitrary codomain `D` and a
function `cast`; memory is a total map from element index to `D`. -/

/-- One timed pass of `bw_write_gbs`
(`for (size_t i = 0; i < els; ++i) p[i] = (double)i;`, line 144). -/
def writePass {D : Type} (cast : Nat → D) (els : Nat) (m : Nat → D) : Nat → D :=
  (List.range els).foldl (fun acc i => Function.update acc i (cast i)) m

/-- The warm-up pass of `bw_write_gbs`
(`for (size_t i = 0; i < els; i += 64 / sizeof(double)) p[i] = (double)i;`,
line 138): every 8th element. -/
def writeWarm {D : Type} (cast : Nat → D) (els : Nat) (m : Nat → D) : Nat → D :=
  ((List.range els).filter (fun i => i % 8 = 0)).foldl
    (fun acc i => Function.update acc i (cast i)) m

/-- The full effect of `bw_write_gbs` on the element array: the warm-up
pass followed by `iters` timed passes. -/
def bwWriteMem {D : Type} (cast : Nat → D) (bytes iters : Nat) (m : Nat → D) : Nat → D :=
  (writePass cast (bytes / 8))^[iters] (writeWarm cast (bytes / 8) m)

/-! ## The latency probe's pointer chain

The chain-building loop (lines 177-182) stores into slot `idx[i]` the
address of slot `idx[i + 1]` for every `i` with `i + 1 < nodes`, and then
stores the address of slot `idx[0]` into slot `idx.back()`.  Addresses are
`buf + slot * stride`; since `buf` and `stride` are fixed, the memory
content is modelled at slot granularity: a list of `(slot, target-slot)`
stores.  `idx` is modelled as an arbitrary list; the claims constrain it to
be a permutation of `[0, nodes)`, which is what `std::shuffle`
guarantees. -/

/-- The stores performed by the chain-building loop, in program order. -/
def chainWrites (idx : List Nat) : List (Nat × Nat) :=
  (List.range (idx.length - 1)).map (fun i => (idx.getD i 0, idx.getD (i + 1) 0)) ++
    [(idx.getD (idx.length - 1) 0, idx.getD 0 0)]

/-- Dereferencing slot `s` after the chain has been built: the target
recorded for `s` (the slots written are pairwise distinct when `idx` has no
duplicates, so the first match is the only one). -/
def chainNext (idx : List Nat) (s : Nat) : Option Nat :=
  (chainWrites idx).lookup s

/-- Following the chain for `k` dereferences starting at slot `s`
(the warm-up and timed loops `p = (volatile char**)(*p);`,
lines 187-198). -/
def followChain (idx : List Nat) : Nat → Nat → Option Nat
  | 0, s => some s
  | k + 1, s => (chainNext idx s).bind (followChain idx k)

/-! ## The fixed-seed shuffle of the latency probe

`latency_ns` seeds `std::mt19937_64 rng(1234567)` (line 174) — a constant,
never the clock — and runs `std::shuffle(idx.begin(), idx.end(), rng)`
(line 175).  `mt19937_64` is fully specified by the C++ standard and is
implemented below on `Nat` modulo `2^64`.  The exact way `std::shuffle`
maps generator output to swap indices is implementation-defined; it is
modelled as the classic Fisher-Yates loop (swap position `i` with a
generator-chosen position `≤ i`, for `i` from `n-1` down to `1`), which is
what libstdc++ and libc++ implement up to the index distribution.  Each
swap is composed as an `Equiv`, so the result is a permutation of
`Fin n` by construction — the only property of the shuffle any claim
relies on, beyond its determinism. -/

/-- Reduction modulo `2^64`. -/
def u64 (x : Nat) : Nat := x % 18446744073709551616

/-- `mt19937_64` state: the 312 state words and the extraction index. -/
def MTState : Type := List Nat × Nat

/-- State initialisation from a seed
(`mt[i] = 6364136223846793005 * (mt[i-1] xor (mt[i-1] >> 62)) + i`). -/
def mtInitGo (prev i fuel : Nat) : List Nat :=
  match fuel with
  | 0 => []
  | f + 1 =>
      let cur := u64 (6364136223846793005 * (prev ^^^ (prev >>> 62)) + i)
      cur :: mtInitGo cur (i + 1) f

/-- The 312 initial state words for a seed. -/
def mtInitList (seed : Nat) : List Nat :=
  u64 seed :: mtInitGo (u64 seed) 1 311

/-- The twisted replacement for state word `i`. -/
def mtTwistVal (st : List Nat) (i : Nat) : Nat :=
  let x := (st.getD i 0 &&& 0xFFFFFFFF80000000) ||| (st.getD ((i + 1) % 312) 0 &&& 0x7FFFFFFF)
  let xA := if x % 2 = 1 then (x >>> 1) ^^^ 0xB5026F5AA96619E9 else x >>> 1
  st.getD ((i + 156) % 312) 0 ^^^ xA

/-- One full twist of the 312 state words, updating in place in order. -/
def mtTwist (st : List Nat) : List Nat :=
  (List.range 312).foldl (fun acc i => acc.set i (mtTwistVal acc i)) st

/-- The `mt19937_64` output tempering. -/
def mtTemper (y0 : Nat) : Nat :=
  let y1 := y0 ^^^ ((y0 >>> 29) &&& 0x5555555555555555)
  let y2 := y1 ^^^ ((y1 <<< 17) &&& 0x71D67FFFEDA60000)
  let y3 := y2 ^^^ ((y2 <<< 37) &&& 0xFFF7EEE000000000)
  y3 ^^^ (y3 >>> 43)

/-- Draw one 64-bit output, twisting when the state is exhausted. -/
def mtDraw (g : MTState) : Nat × MTState :=
  if g.2 ≥ 312 then
    let st := mtTwist g.1
    (mtTemper (st.getD 0 0), (st, 1))
  else
    (mtTemper (g.1.getD g.2 0), (g.1, g.2 + 1))

/-- The freshly seeded generator (first draw forces a twist). -/
def mtStart (seed : Nat) : MTState := (mtInitList seed, 312)

/-- Fisher-Yates positions `n-1, n-2, ..., 1`. -/
def fyIndices (n : Nat) : List (Fin n) :=
  ((List.finRange n).drop 1).reverse

/-- One Fisher-Yates step: swap position `i` with a generator-chosen
position `≤ i`. -/
def fyStep (n : Nat) (acc : Equiv.Perm (Fin n) × MTState) (i : Fin n) :
    Equiv.Perm (Fin n) × MTState :=
  let d := mtDraw acc.2
  let j : Fin n := ⟨d.1 % (i.val + 1),
    Nat.lt_of_lt_of_le (Nat.mod_lt d.1 (Nat.succ_pos i.val)) i.isLt⟩
  (acc.1.trans (Equiv.swap i j), d.2)

/-- The permutation produced by the fixed-seed shuffle of `[0, n)`. -/
def shuffledPerm (seed n : Nat) : Equiv.Perm (Fin n) :=
  ((fyIndices n).foldl (fyStep n) (Equiv.refl (Fin n), mtStart seed)).1

/-- The constant seed of line 174. -/
def latSeed : Nat := 1234567

/-- The shuffled `idx` vector of `latency_ns` (lines 171-175) as a list of
slot numbers. -/
def latPermList (bytes stride : Nat) : List Nat :=
  (List.finRange (latNodes bytes stride)).map
    (fun i => (shuffledPerm latSeed (latNodes bytes stride) i).val)

/-- The observable outcome of one `latency_ns` invocation: the slot
permutation it chased, the number of timed dereferences, and the elapsed
time it measured.  Only the last component depends on the clock. -/
structure LatOut where
  perm : List Nat
  derefs : Nat
  timedNs : Int
deriving DecidableEq, Repr

/-- One invocation of `latency_ns` (lines 168-204), with the monotonic
clock abstracted as an input stream `clock` (reading `j` is the `j`-th
`clk::now()` call).  The permutation and the dereference count are computed
without consulting the clock. -/
def latProbe (bytes stride : Nat) (clock : Nat → Int) : LatOut :=
  { perm := latPermList bytes stride
    derefs := latDerefs bytes stride
    timedNs := clock 1 - clock 0 }

/-! # Theorems -/

/-! ## Parser stepping lemmas -/

theorem cppStoi_quick : cppStoi "--quick" = none := by decide

theorem cppStoull_quick : cppStoull "--quick" = none := by decide

theorem cppStoi_itersFlag : cppStoi "--iters" = none := by decide

theorem cppStoull_itersFlag : cppStoull "--iters" = none := by decide

theorem parseLoop_quick_cons (a : Args) (rest : List String) :
    parseLoop a ("--quick" :: rest) = parseLoop { a with quick := true } rest := by
  cases rest <;> simp [parseLoop]

theorem parseLoop_other_cons (a : Args) (v : String) (rest : List String)
    (h1 : v ≠ "--iters") (h2 : v ≠ "--stride") (h3 : v ≠ "--l1KB") (h4 : v ≠ "--l2KB")
    (h5 : v ≠ "--l3KB") (h6 : v ≠ "--memKB") (h7 : v ≠ "--quick") :
    parseLoop a (v :: rest) = .usageFalse := by
  cases rest <;> simp [parseLoop, h1, h2, h3, h4, h5, h6, h7]

/-- The loop never clears an already-set quick flag. -/
theorem parseLoop_quick_mono (a : Args) (l : List String) :
    ∀ b : Args, parseLoop a l = .ok b → a.quick = true → b.quick = true := by
  induction a, l using parseLoop.induct <;> intro b h hq <;>
    simp_all [parseLoop, parseLoop_quick_cons, parseLoop_other_cons]

/-- If the loop completes and `--quick` occurred anywhere on the command
line, the quick flag is set: `--quick` cannot have been consumed as the
value of a numeric flag, because it does not convert. -/
theorem parseLoop_quick_found (a : Args) (l : List String) :
    ∀ b : Args, parseLoop a l = .ok b → "--quick" ∈ l → b.quick = true := by
  induction a, l using parseLoop.induct <;> intro b h hq <;>
    try simp_all [parseLoop, parseLoop_quick_cons, parseLoop_other_cons, cppStoi_quick,
      cppStoull_quick]
  all_goals try exact parseLoop_quick_mono _ _ b h rfl
  all_goals
    (rcases hq with rfl | hq <;> simp_all [cppStoi_quick, cppStoull_quick])

theorem goodIters_cons_other (v : String) (rest : List String) (hv : v ≠ "--iters") :
    goodIters (v :: rest) = goodIters rest := by
  cases rest <;> simp [goodIters, hv]

/-- If every convertible `--iters` value on the line is `≥ 1`, the loop
preserves `iters ≥ 1`. -/
theorem parseLoop_iters_good (a : Args) (l : List String) :
    ∀ b : Args, goodIters l = true → 1 ≤ a.iters → parseLoop a l = .ok b → 1 ≤ b.iters := by
  induction a, l using parseLoop.induct with
  | case1 a =>
    intro b _ hi h
    simp only [parseLoop] at h
    injection h with h
    exact h ▸ hi
  | case2 a =>
    intro b _ _ h
    simp [parseLoop] at h
  | case3 a v rest2 hnone =>
    intro b _ _ h
    simp [parseLoop, hnone] at h
  | case4 a v rest2 n hsome ih =>
    intro b hg hi h
    have hv : v ≠ "--iters" := by
      intro hv; rw [hv, cppStoi_itersFlag] at hsome; cases hsome
    simp only [goodIters, hsome, Bool.and_eq_true, decide_eq_true_eq] at hg
    rw [goodIters_cons_other v rest2 hv] at hg
    simp only [parseLoop, hsome] at h
    exact ih b hg.2 hg.1 h
  | case5 a _ =>
    intro b _ _ h
    simp [parseLoop] at h
  | case6 a v rest2 hnone _ =>
    intro b _ _ h
    simp [parseLoop, hnone] at h
  | case7 a v rest2 n hsome _ ih =>
    intro b hg hi h
    have hv : v ≠ "--iters" := by
      intro hv; rw [hv, cppStoull_itersFlag] at hsome; cases hsome
    rw [goodIters_cons_other _ _ (by decide), goodIters_cons_other v rest2 hv] at hg
    simp only [parseLoop, hsome] at h
    exact ih b hg hi h
  | case8 a _ _ =>
    intro b _ _ h
    simp [parseLoop] at h
  | case9 a v rest2 hnone _ _ =>
    intro b _ _ h
    simp [parseLoop, hnone] at h
  | case10 a v rest2 n hsome _ _ ih =>
    intro b hg hi h
    have hv : v ≠ "--iters" := by
      intro hv; rw [hv, cppStoull_itersFlag] at hsome; cases hsome
    rw [goodIters_cons_other _ _ (by decide), goodIters_cons_other v rest2 hv] at hg
    simp only [parseLoop, hsome] at h
    exact ih b hg hi h
  | case11 a _ _ _ =>
    intro b _ _ h
    simp [parseLoop] at h
  | case12 a v rest2 hnone _ _ _ =>
    intro b _ _ h
    simp [parseLoop, hnone] at h
  | case13 a v rest2 n hsome _ _ _ ih =>
    intro b hg hi h
    have hv : v ≠ "--iters" := by
      intro hv; rw [hv, cppStoull_itersFlag] at hsome; cases hsome
    rw [goodIters_cons_other _ _ (by decide), goodIters_cons_other v rest2 hv] at hg
    simp only [parseLoop, hsome] at h
    exact ih b hg hi h
  | case14 a _ _ _ _ =>
    intro b _ _ h
    simp [parseLoop] at h
  | case15 a v rest2 hnone _ _ _ _ =>
    intro b _ _ h
    simp [parseLoop, hnone] at h
  | case16 a v rest2 n hsome _ _ _ _ ih =>
    intro b hg hi h
    have hv : v ≠ "--iters" := by
      intro hv; rw [hv, cppStoull_itersFlag] at hsome; cases hsome
    rw [goodIters_cons_other _ _ (by decide), goodIters_cons_other v rest2 hv] at hg
    simp only [parseLoop, hsome] at h
    exact ih b hg hi h
  | case17 a _ _ _ _ _ =>
    intro b _ _ h
    simp [parseLoop] at h
  | case18 a v rest2 hnone _ _ _ _ _ =>
    intro b _ _ h
    simp [parseLoop, hnone] at h
  | case19 a v rest2 n hsome _ _ _ _ _ ih =>
    intro b hg hi h
    have hv : v ≠ "--iters" := by
      intro hv; rw [hv, cppStoull_itersFlag] at hsome; cases hsome
    rw [goodIters_cons_other _ _ (by decide), goodIters_cons_other v rest2 hv] at hg
    simp only [parseLoop, hsome] at h
    exact ih b hg hi h
  | case20 a rest2 _ _ _ _ _ _ ih =>
    intro b hg hi h
    rw [parseLoop_quick_cons] at h
    rw [goodIters_cons_other _ _ (by decide)] at hg
    exact ih b hg hi h
  | case21 a v rest2 n1 n2 n3 n4 n5 n6 n7 hor =>
    intro b _ _ h
    rw [parseLoop_other_cons a v rest2 n1 n2 n3 n4 n5 n6 n7] at h
    cases h
  | case22 a v rest2 n1 n2 n3 n4 n5 n6 n7 hne =>
    intro b _ _ h
    rw [parseLoop_other_cons a v rest2 n1 n2 n3 n4 n5 n6 n7] at h
    cases h

/-- Elementary facts about the stride fix-up of lines 91-95, on the inputs
where the line-94 addition does not wrap modulo `2^64`. -/
theorem postStride_spec (s : Nat) (hw : s + ptrSize - 1 < 18446744073709551616) :
    0 < postStride s ∧ postStride s % ptrSize = 0 ∧
      (s = 0 → postStride s = ptrSize) ∧
      (0 < s → s % ptrSize = 0 → postStride s = s) ∧
      (0 < s → s ≤ postStride s ∧ postStride s < s + ptrSize) := by
  simp only [postStride, ptrSize] at hw ⊢
  by_cases h0 : s = 0
  · subst h0; decide
  · simp only [if_neg h0]
    split_ifs with h8
    · rw [Nat.mod_eq_of_lt (by omega)]
      omega
    · omega

/-- `postProc` never changes the stride after the fix-up. -/
theorem postProc_stride (b : Args) : (postProc b).stride = postStride b.stride := by
  simp only [postProc]
  split <;> rfl

/-! ## Claim C3 -/

/-- C3, counterexample: on the command line `--iters abc` the process does
not take the report-usage-and-return-1 path (`POut.failExit1`); the
uncaught `std::invalid_argument` from `stoi` terminates it abnormally
(`POut.exn`). -/
theorem unparsable_value_cex :
    parseArgs ["--iters", "abc"] = POut.exn ∧ POut.exn ≠ POut.failExit1 ∧
      mainOutcome ["--iters", "abc"] = MainOut.abortNoAlloc ∧
      MainOut.abortNoAlloc ≠ MainOut.exit1NoAlloc := by
  decide

/-- C3 (amended): whenever a numeric flag is followed by a value string
that does not convert, the parse — from any intermediate state, hence
wherever on the line the flag occurs — ends in the uncaught-exception
outcome, and `main` terminates abnormally before any allocation or
measurement; it does not print usage or exit with status 1. -/
theorem unparsable_value_uncaught (f v : String) (rest : List String)
    (hf : f ∈ numFlags) (hv : numValueParses f v = false) :
    (∀ st : Args, parseLoop st (f :: v :: rest) = .exn) ∧
      mainOutcome (f :: v :: rest) = MainOut.abortNoAlloc := by
  have key : ∀ st : Args, parseLoop st (f :: v :: rest) = .exn := by
    intro st
    fin_cases hf
    · have hn : cppStoi v = none := by
        cases hcv : cppStoi v
        · rfl
        · simp [numValueParses, hcv] at hv
      simp [parseLoop, hn]
    all_goals
      (have hn : cppStoull v = none := by
         cases hcv : cppStoull v
         · rfl
         · simp [numValueParses, hcv] at hv
       simp [parseLoop, hn])
  refine ⟨key, ?_⟩
  simp only [mainOutcome, parseArgs, key defaultArgs]

/-- C3, witness for the amended theorem at `--iters abc`. -/
theorem unparsable_value_uncaught_witness :
    ("--iters" ∈ numFlags ∧ numValueParses "--iters" "abc" = false) ∧
      ((∀ st : Args, parseLoop st ["--iters", "abc"] = .exn) ∧
        mainOutcome ["--iters", "abc"] = MainOut.abortNoAlloc) :=
  ⟨⟨by decide, by decide⟩, unparsable_value_uncaught "--iters" "abc" [] (by decide) (by decide)⟩

/-! ## Claim C4 -/

/-- C4, counterexample: `--iters 0` parses successfully (nothing validates
the value), so the resulting configuration has iteration count `0 < 1`. -/
theorem iters_zero_cex :
    ¬ (∀ (l : List String) (a : Args), parseArgs l = .success a → 1 ≤ a.iters) := by
  intro hcl
  have h0 : parseArgs ["--iters", "0"] =
      POut.success ⟨0, 64, 32, 512, 8192, 131072, false⟩ := by decide
  have := hcl _ _ h0
  exact absurd this (by decide)

/-- C4 (amended): after a successful parse the iteration count is at least
1, provided every convertible value passed to `--iters` on the command line
is at least 1 (the default is 3, quick mode forces 2, but an explicit
`--iters` value is stored unvalidated). -/
theorem iters_ge_one_when_values_ok (l : List String) (a : Args)
    (hg : goodIters l = true) (h : parseArgs l = .success a) : 1 ≤ a.iters := by
  cases e : parseLoop defaultArgs l with
  | ok b =>
    simp only [parseArgs, e, POut.success.injEq] at h
    have hb : 1 ≤ b.iters := parseLoop_iters_good defaultArgs l b hg (by decide) e
    subst h
    simp only [postProc]
    split
    · exact (by decide : (1 : Int) ≤ 2)
    · exact hb
  | usageFalse => simp [parseArgs, e] at h
  | exn => simp [parseArgs, e] at h

/-- C4, witness for the amended theorem at `--iters 5`. -/
theorem iters_ge_one_witness :
    (goodIters ["--iters", "5"] = true ∧
      parseArgs ["--iters", "5"] = POut.success ⟨5, 64, 32, 512, 8192, 131072, false⟩) ∧
      1 ≤ (⟨5, 64, 32, 512, 8192, 131072, false⟩ : Args).iters :=
  ⟨⟨by decide, by decide⟩,
    iters_ge_one_when_values_ok ["--iters", "5"] ⟨5, 64, 32, 512, 8192, 131072, false⟩
      (by decide) (by decide)⟩

/-! ## Claim C5 -/

/-- C5: on any successfully parsed command line containing `--quick`,
regardless of flag order and of any explicit `--iters`/`--memKB` values,
the effective configuration has `iters = 2` and
`memKB = min(requested memKB, 65536)` (where the requested value is the one
the argument loop accumulated). -/
theorem quick_overrides (l : List String) (a : Args) (h : parseArgs l = .success a)
    (hq : "--quick" ∈ l) :
    a.iters = 2 ∧ a.memKB ≤ 65536 ∧
      ∃ b : Args, parseLoop defaultArgs l = .ok b ∧ a.memKB = min b.memKB 65536 := by
  cases e : parseLoop defaultArgs l with
  | ok b =>
    simp only [parseArgs, e, POut.success.injEq] at h
    have hb : b.quick = true := parseLoop_quick_found defaultArgs l b e hq
    subst h
    refine ⟨?_, ?_, b, rfl, ?_⟩ <;>
      simp [postProc, hb, min_le_right]
  | usageFalse => simp [parseArgs, e] at h
  | exn => simp [parseArgs, e] at h

/-- C5, witness: `--quick --memKB 200000` yields `iters = 2` and
`memKB = 65536`. -/
theorem quick_overrides_witness :
    (parseArgs ["--quick", "--memKB", "200000"] =
        POut.success ⟨2, 64, 32, 512, 8192, 65536, true⟩ ∧
      "--quick" ∈ ["--quick", "--memKB", "200000"]) ∧
      ((⟨2, 64, 32, 512, 8192, 65536, true⟩ : Args).iters = 2 ∧
        (⟨2, 64, 32, 512, 8192, 65536, true⟩ : Args).memKB ≤ 65536 ∧
        ∃ b : Args, parseLoop defaultArgs ["--quick", "--memKB", "200000"] = .ok b ∧
          (⟨2, 64, 32, 512, 8192, 65536, true⟩ : Args).memKB = min b.memKB 65536) :=
  ⟨⟨by decide, by decide⟩,
    quick_overrides ["--quick", "--memKB", "200000"] ⟨2, 64, 32, 512, 8192, 65536, true⟩
      (by decide) (by decide)⟩

/-! ## Claim C6 -/

/-- C6, counterexample: `--stride 18446744073709551609` (that is,
`2^64 - 7`, accepted by `stoull`) parses successfully, but the line-94
round-up computes `(2^64 - 7 + 7) mod 2^64 = 0` in `size_t` and the
effective stride is 0 — not a positive multiple of the pointer size. -/
theorem stride_wrap_cex :
    parseArgs ["--stride", "18446744073709551609"] =
        POut.success ⟨3, 0, 32, 512, 8192, 131072, false⟩ ∧
      ¬ 0 < (⟨3, 0, 32, 512, 8192, 131072, false⟩ : Args).stride := by
  decide

/-- C6 (amended): after a successful parse, provided the requested stride
is small enough that the line-94 addition `stride + ptrSize - 1` does not
wrap modulo `2^64` (i.e. the stride is at most `2^64 - 8`; larger strides
wrap to an effective stride of 0), the effective stride is a positive
multiple of the pointer size: a requested stride of 0 resolves to exactly
the pointer size, a stride that is already a positive multiple is left
unchanged, and any other stride is rounded up to the next multiple
(`stride ≤ effective < stride + ptrSize`). -/
theorem stride_rounding (l : List String) (a : Args) (h : parseArgs l = .success a) :
    ∃ b : Args, parseLoop defaultArgs l = .ok b ∧ a.stride = postStride b.stride ∧
      (b.stride + ptrSize - 1 < 18446744073709551616 →
        0 < a.stride ∧ a.stride % ptrSize = 0 ∧
          (b.stride = 0 → a.stride = ptrSize) ∧
          (0 < b.stride → b.stride % ptrSize = 0 → a.stride = b.stride) ∧
          (0 < b.stride → b.stride ≤ a.stride ∧ a.stride < b.stride + ptrSize)) := by
  cases e : parseLoop defaultArgs l with
  | ok b =>
    simp only [parseArgs, e, POut.success.injEq] at h
    have ha : a.stride = postStride b.stride := by rw [← h, postProc_stride]
    refine ⟨b, rfl, ha, ?_⟩
    intro hw
    have hs := postStride_spec b.stride hw
    refine ⟨ha ▸ hs.1, ha ▸ hs.2.1, ?_, ?_, ?_⟩
    · intro h0; rw [ha]; exact hs.2.2.1 h0
    · intro h1 h2; rw [ha]; exact hs.2.2.2.1 h1 h2
    · intro h1; rw [ha]; exact hs.2.2.2.2 h1
  | usageFalse => simp [parseArgs, e] at h
  | exn => simp [parseArgs, e] at h

/-- C6, witness: `--stride 10` rounds up to 16 on the 8-byte-pointer
platform. -/
theorem stride_rounding_witness :
    parseArgs ["--stride", "10"] = POut.success ⟨3, 16, 32, 512, 8192, 131072, false⟩ ∧
      (∃ b : Args, parseLoop defaultArgs ["--stride", "10"] = .ok b ∧
        (⟨3, 16, 32, 512, 8192, 131072, false⟩ : Args).stride = postStride b.stride ∧
        (b.stride + ptrSize - 1 < 18446744073709551616 →
          0 < (⟨3, 16, 32, 512, 8192, 131072, false⟩ : Args).stride ∧
            (⟨3, 16, 32, 512, 8192, 131072, false⟩ : Args).stride % ptrSize = 0 ∧
            (b.stride = 0 →
              (⟨3, 16, 32, 512, 8192, 131072, false⟩ : Args).stride = ptrSize) ∧
            (0 < b.stride → b.stride % ptrSize = 0 →
              (⟨3, 16, 32, 512, 8192, 131072, false⟩ : Args).stride = b.stride) ∧
            (0 < b.stride →
              b.stride ≤ (⟨3, 16, 32, 512, 8192, 131072, false⟩ : Args).stride ∧
              (⟨3, 16, 32, 512, 8192, 131072, false⟩ : Args).stride <
                b.stride + ptrSize))) :=
  ⟨by decide,
    stride_rounding ["--stride", "10"] ⟨3, 16, 32, 512, 8192, 131072, false⟩ (by decide)⟩

/-! ## Claim C2 -/

/-- C2, code evaluation at the claim's test points: `fmt` receives GB/s
values from `bw_*_gbs`, so 1500 MB/s arrives as `3/2` and is printed as
`1500.00 MB/s` (the MB/s branch), not as `1.50 GB/s`; 0.95 GB/s is printed
as `950.00 MB/s`; even 999 GB/s takes the MB/s branch, because the code
compares the GB/s value against the threshold 1000 — the GB/s unit is
selected only from 1000 GB/s upward, not from 1000 MB/s upward. -/
theorem fmt_threshold_behavior :
    fmtBW (3 / 2) = (1500, "MB/s") ∧ fmtBW (19 / 20) = (950, "MB/s") ∧
      fmtBW 999 = (999000, "MB/s") ∧ fmtBW 1000 = (1000, "GB/s") := by
  refine ⟨?_, ?_, ?_, ?_⟩ <;> norm_num [fmtBW]

/-! ## Claim C7 -/

/-- C7: for positive stride the latency probe uses
`nodes = max(2, bytes / stride)` slots (integer division, so
`bytes = 1024, stride = 64` gives 16 and `bytes = 64, stride = 1024` floors
to 2) and performs exactly `clamp(nodes * 8, 40000, 150000)` timed
dereferences, whatever the clock returns. -/
theorem latency_nodes_derefs (bytes stride : Nat) (hs : 0 < stride) :
    latNodes bytes stride = max 2 (bytes / stride) ∧
      latDerefs bytes stride = clampSpec 40000 150000 (latNodes bytes stride * 8) ∧
      (∀ clock : Nat → Int,
        (latProbe bytes stride clock).derefs = latDerefs bytes stride ∧
          (latProbe bytes stride clock).perm.length = latNodes bytes stride) ∧
      latNodes 1024 64 = 16 ∧ latNodes 64 1024 = 2 := by
  refine ⟨rfl, ?_, ?_, by decide, by decide⟩
  · unfold latDerefs clampSpec
    omega
  · intro clock
    refine ⟨rfl, ?_⟩
    simp [latProbe, latPermList]

/-- C7, witness at `bytes = 1024, stride = 64`. -/
theorem latency_nodes_derefs_witness :
    0 < 64 ∧
      (latNodes 1024 64 = max 2 (1024 / 64) ∧
        latDerefs 1024 64 = clampSpec 40000 150000 (latNodes 1024 64 * 8) ∧
        (∀ clock : Nat → Int,
          (latProbe 1024 64 clock).derefs = latDerefs 1024 64 ∧
            (latProbe 1024 64 clock).perm.length = latNodes 1024 64) ∧
        latNodes 1024 64 = 16 ∧ latNodes 64 1024 = 2) :=
  ⟨by decide, latency_nodes_derefs 1024 64 (by decide)⟩

/-! ## Claim C1 -/

/-- C1, counterexample: at tier capacity `B = 64` bytes and stride 1024 (a
positive multiple of the pointer size — the spec's own `bytes = 64,
stride = 1024` example), `nodes` floors to 2 and the chain-building write
into the second slot touches bytes `1024 .. 1031`, far outside
`0 .. 63`. -/
theorem latency_exceeds_capacity_cex :
    0 < (64 : Nat) ∧ 0 < (1024 : Nat) ∧ 1024 % ptrSize = 0 ∧
      ¬ inBounds 64 (latTouched 64 1024) := by
  decide

/-- C1 (amended): the three bandwidth probes always stay inside
`0 .. B - 1`; the latency probe does too, provided additionally
`stride + ptrSize ≤ B` — without that margin its second slot (offset
`stride`, which exists even when `nodes` floors to 2) is written outside
the tier capacity. -/
theorem probes_within_capacity (B stride : Nat) (hB : 0 < B)
    (hs : 0 < stride) (hs8 : stride % ptrSize = 0) (hroom : stride + ptrSize ≤ B) :
    inBounds B (bwReadTouched B) ∧ inBounds B (bwWriteTouched B) ∧
      inBounds B (bwCopyTouched B) ∧ inBounds B (latTouched B stride) := by
  simp only [ptrSize] at hs8 hroom
  have h8 : 8 ≤ stride := by omega
  refine ⟨?_, ?_, ?_, ?_⟩
  · intro p hp
    simp only [bwReadTouched, List.mem_map, List.mem_append, List.mem_filter,
      List.mem_range] at hp
    obtain ⟨i, hi, rfl⟩ := hp
    have hilt : i < B / 8 := by
      rcases hi with ⟨h, _⟩ | h <;> exact h
    simp only [ptrSize]
    omega
  · intro p hp
    simp only [bwWriteTouched, List.mem_map, List.mem_append, List.mem_filter,
      List.mem_range] at hp
    obtain ⟨i, hi, rfl⟩ := hp
    have hilt : i < B / 8 := by
      rcases hi with ⟨h, _⟩ | h <;> exact h
    simp only [ptrSize]
    omega
  · intro p hp
    simp only [bwCopyTouched, List.mem_singleton] at hp
    subst hp
    simp
  · intro p hp
    simp only [latTouched, List.mem_map, List.mem_range] at hp
    obtain ⟨k, hk, rfl⟩ := hp
    simp only [ptrSize]
    by_cases hc : B / stride ≤ 2
    · have hn : latNodes B stride = 2 := by unfold latNodes; omega
      rw [hn] at hk
      interval_cases k <;> omega
    · have hn : latNodes B stride = B / stride := by unfold latNodes; omega
      rw [hn] at hk
      have h1 : k * stride + stride ≤ (B / stride) * stride := by
        have h2 : k + 1 ≤ B / stride := hk
        calc k * stride + stride = (k + 1) * stride := by ring
          _ ≤ (B / stride) * stride := Nat.mul_le_mul_right _ h2
      have h3 := Nat.div_mul_le_self B stride
      omega

/-- C1, witness for the amended theorem at `B = 1024, stride = 64`. -/
theorem probes_within_capacity_witness :
    (0 < (1024 : Nat) ∧ 0 < (64 : Nat) ∧ 64 % ptrSize = 0 ∧ 64 + ptrSize ≤ 1024) ∧
      (inBounds 1024 (bwReadTouched 1024) ∧ inBounds 1024 (bwWriteTouched 1024) ∧
        inBounds 1024 (bwCopyTouched 1024) ∧ inBounds 1024 (latTouched 1024 64)) :=
  ⟨by decide, probes_within_capacity 1024 64 (by decide) (by decide) (by decide) (by decide)⟩

/-! ## Claim C10 -/

/-- Effect of a fold of index writes over `List.range n`. -/
theorem foldl_update_range {D : Type} (cast : Nat → D) (n : Nat) (m : Nat → D) (j : Nat) :
    ((List.range n).foldl (fun acc i => Function.update acc i (cast i)) m) j =
      if j < n then cast j else m j := by
  induction n generalizing m with
  | zero => simp
  | succ n ih =>
    rw [List.range_succ, List.foldl_append]
    simp only [List.foldl_cons, List.foldl_nil]
    rw [Function.update_apply, ih]
    by_cases hj : j = n
    · subst hj; simp
    · simp only [hj, if_false]
      split_ifs <;> first | rfl | omega

/-- A fold of index writes leaves any index outside the list unchanged. -/
theorem foldl_update_notMem {D : Type} (cast : Nat → D) (l : List Nat) :
    ∀ (m : Nat → D) (j : Nat), j ∉ l →
      (l.foldl (fun acc i => Function.update acc i (cast i)) m) j = m j := by
  induction l with
  | nil => intro m j _; rfl
  | cons i t ih =>
    intro m j hj
    simp only [List.mem_cons, not_or] at hj
    simp only [List.foldl_cons]
    rw [ih _ j hj.2, Function.update_apply, if_neg hj.1]

/-- Pointwise description of one timed write pass. -/
theorem writePass_apply {D : Type} (cast : Nat → D) (els : Nat) (m : Nat → D) (j : Nat) :
    writePass cast els m j = if j < els then cast j else m j :=
  foldl_update_range cast els m j

/-- C10: after the write probe runs (with at least one timed pass), every
8-byte element `i < bytes / 8` of the buffer holds `(double)i`, and no
element at or beyond `bytes / 8` was touched. -/
theorem write_probe_final_memory {D : Type} (cast : Nat → D) (bytes iters : Nat)
    (m : Nat → D) (hit : 1 ≤ iters) :
    (∀ i, i < bytes / 8 → bwWriteMem cast bytes iters m i = cast i) ∧
      (∀ j, ¬ j < bytes / 8 → bwWriteMem cast bytes iters m j = m j) := by
  unfold bwWriteMem
  obtain ⟨k, rfl⟩ : ∃ k, iters = k + 1 := ⟨iters - 1, by omega⟩
  constructor
  · intro i hi
    rw [Function.iterate_succ_apply', writePass_apply]
    simp [hi]
  · intro j hj
    have hpass : ∀ (n : Nat) (x : Nat → D), ((writePass cast (bytes / 8))^[n] x) j = x j := by
      intro n
      induction n with
      | zero => intro x; simp
      | succ n ih =>
        intro x
        rw [Function.iterate_succ_apply', writePass_apply]
        simp [hj, ih]
    rw [hpass]
    unfold writeWarm
    apply foldl_update_notMem
    simp only [List.mem_filter, List.mem_range, not_and]
    intro h
    omega

/-- C10, witness: `bytes = 32` (4 elements), one iteration, `D = Nat`,
`cast` the identity, starting from the constant-99 memory. -/
theorem write_probe_final_memory_witness :
    1 ≤ 1 ∧
      ((∀ i, i < 32 / 8 → bwWriteMem (fun n => n) 32 1 (fun _ => 99) i = i) ∧
        (∀ j, ¬ j < 32 / 8 → bwWriteMem (fun n => n) 32 1 (fun _ => 99) j = 99)) :=
  ⟨le_refl 1, write_probe_final_memory (fun n => n) 32 1 (fun _ => 99) (le_refl 1)⟩


/-! ## Chain lemmas -/

theorem lookup_map_range (n : Nat) :
    ∀ (f g : Nat → Nat), (∀ i1 i2, i1 < n → i2 < n → f i1 = f i2 → i1 = i2) →
      ∀ j, j < n → ((List.range n).map (fun i => (f i, g i))).lookup (f j) = some (g j) := by
  induction n with
  | zero => intro f g _ j hj; omega
  | succ n ih =>
    intro f g hinj j hj
    rw [List.range_succ_eq_map]
    simp only [List.map_cons, List.map_map]
    match j with
    | 0 => simp [List.lookup]
    | j' + 1 =>
      have hne : (f (j' + 1) == f 0) = false := by
        refine beq_eq_false_iff_ne.mpr fun heq => ?_
        have := hinj (j' + 1) 0 hj (by omega) heq
        omega
      simp only [List.lookup, hne]
      have hres := ih (fun i => f (i + 1)) (fun i => g (i + 1))
        (fun i1 i2 h1 h2 he => by
          have := hinj (i1 + 1) (i2 + 1) (by omega) (by omega) he
          omega)
        j' (by omega)
      simpa [Function.comp, Nat.succ_eq_add_one] using hres

theorem chainWrites_eq (idx : List Nat) (h1 : 1 ≤ idx.length) :
    chainWrites idx =
      (List.range idx.length).map
        (fun i => (idx.getD i 0, idx.getD ((i + 1) % idx.length) 0)) := by
  unfold chainWrites
  conv_rhs => rw [show idx.length = (idx.length - 1) + 1 by omega, List.range_succ]
  rw [List.map_append]
  congr 1
  · apply List.map_congr_left
    intro i hi
    rw [List.mem_range] at hi
    rw [Nat.mod_eq_of_lt (by omega)]
  · simp only [List.map_cons, List.map_nil]
    rw [show idx.length - 1 + 1 = idx.length by omega, Nat.mod_self]

theorem getD_inj (idx : List Nat) (hnodup : idx.Nodup) (i1 i2 : Nat)
    (h1 : i1 < idx.length) (h2 : i2 < idx.length)
    (he : idx.getD i1 0 = idx.getD i2 0) : i1 = i2 := by
  rw [List.getD_eq_getElem idx 0 h1, List.getD_eq_getElem idx 0 h2] at he
  exact (List.Nodup.getElem_inj_iff hnodup).mp he

theorem chainNext_getD (idx : List Nat) (hn : 1 ≤ idx.length) (hnodup : idx.Nodup)
    (j : Nat) (hj : j < idx.length) :
    chainNext idx (idx.getD j 0) = some (idx.getD ((j + 1) % idx.length) 0) := by
  unfold chainNext
  rw [chainWrites_eq idx hn]
  exact lookup_map_range idx.length (fun i => idx.getD i 0)
    (fun i => idx.getD ((i + 1) % idx.length) 0)
    (fun i1 i2 hi1 hi2 he => getD_inj idx hnodup i1 i2 hi1 hi2 he) j hj

theorem followChain_getD (idx : List Nat) (hn : 1 ≤ idx.length) (hnodup : idx.Nodup) :
    ∀ (k j : Nat), j < idx.length →
      followChain idx k (idx.getD j 0) = some (idx.getD ((j + k) % idx.length) 0) := by
  intro k
  induction k with
  | zero =>
    intro j hj
    rw [Nat.add_zero, Nat.mod_eq_of_lt hj]
    rfl
  | succ k ih =>
    intro j hj
    have hstep : followChain idx (k + 1) (idx.getD j 0) =
        (chainNext idx (idx.getD j 0)).bind (followChain idx k) := rfl
    rw [hstep, chainNext_getD idx hn hnodup j hj]
    simp only [Option.some_bind]
    rw [ih ((j + 1) % idx.length) (Nat.mod_lt _ (by omega))]
    congr 2
    rw [Nat.mod_add_mod]
    congr 1
    omega


/-! ## Claim C8 -/

/-- C8: for any permutation vector `idx` (pairwise-distinct slots, at least
two of them — what `std::shuffle` produces), the chain built by lines
177-182 is one Hamiltonian cycle: following it from any chained slot
returns to that slot after exactly `nodes` dereferences, never earlier, and
the first `nodes` steps visit every chained slot. -/
theorem chain_hamiltonian_cycle (idx : List Nat) (hn : 2 ≤ idx.length)
    (hnodup : idx.Nodup) (s : Nat) (hs : s ∈ idx) :
    followChain idx idx.length s = some s ∧
      (∀ k, 0 < k → k < idx.length → followChain idx k s ≠ some s) ∧
      (∀ t, t ∈ idx → ∃ k, k < idx.length ∧ followChain idx k s = some t) := by
  have hn1 : 1 ≤ idx.length := by omega
  obtain ⟨j, hj, hjd⟩ : ∃ j, j < idx.length ∧ idx.getD j 0 = s := by
    rw [List.mem_iff_getElem] at hs
    obtain ⟨j, hj, h⟩ := hs
    exact ⟨j, hj, by rw [List.getD_eq_getElem idx 0 hj, h]⟩
  subst hjd
  refine ⟨?_, ?_, ?_⟩
  · rw [followChain_getD idx hn1 hnodup idx.length j hj, Nat.add_mod_right,
      Nat.mod_eq_of_lt hj]
  · intro k hk0 hklen heq
    rw [followChain_getD idx hn1 hnodup k j hj, Option.some.injEq] at heq
    have hlt : (j + k) % idx.length < idx.length := Nat.mod_lt _ (by omega)
    have hjk := getD_inj idx hnodup _ _ hlt hj heq
    rcases Nat.lt_or_ge (j + k) idx.length with hc | hc
    · rw [Nat.mod_eq_of_lt hc] at hjk
      omega
    · have hc2 : j + k - idx.length < idx.length := by omega
      rw [Nat.mod_eq_sub_mod hc, Nat.mod_eq_of_lt hc2] at hjk
      omega
  · intro t ht
    obtain ⟨m, hm, hmd⟩ : ∃ m, m < idx.length ∧ idx.getD m 0 = t := by
      rw [List.mem_iff_getElem] at ht
      obtain ⟨m, hm, h⟩ := ht
      exact ⟨m, hm, by rw [List.getD_eq_getElem idx 0 hm, h]⟩
    refine ⟨(idx.length + m - j) % idx.length, Nat.mod_lt _ (by omega), ?_⟩
    rw [followChain_getD idx hn1 hnodup _ j hj, Nat.add_mod_mod,
      show j + (idx.length + m - j) = idx.length + m by omega, Nat.add_mod_left,
      Nat.mod_eq_of_lt hm, hmd]

/-- C8, witness: the permutation `[2, 0, 1]` of three slots. -/
theorem chain_hamiltonian_cycle_witness :
    (2 ≤ ([2, 0, 1] : List Nat).length ∧ ([2, 0, 1] : List Nat).Nodup ∧
        (2 : Nat) ∈ ([2, 0, 1] : List Nat)) ∧
      (followChain [2, 0, 1] ([2, 0, 1] : List Nat).length 2 = some 2 ∧
        (∀ k, 0 < k → k < ([2, 0, 1] : List Nat).length →
          followChain [2, 0, 1] k 2 ≠ some 2) ∧
        (∀ t, t ∈ ([2, 0, 1] : List Nat) →
          ∃ k, k < ([2, 0, 1] : List Nat).length ∧ followChain [2, 0, 1] k 2 = some t)) :=
  ⟨⟨by decide, by decide, by decide⟩,
    chain_hamiltonian_cycle [2, 0, 1] (by decide) (by decide) 2 (by decide)⟩

/-! ## Claim C9 -/

/-- C9: the latency probe's access pattern is deterministic — the shuffle
is seeded with the constant 1234567, not the clock, so two invocations with
the same `(bytes, stride)` produce the same slot permutation and the same
timed dereference count whatever the clock does; moreover the permutation
really is one of `[0, nodes)`: it has no duplicates, has length `nodes`,
and all its entries are below `nodes`. -/
theorem latency_deterministic (bytes stride : Nat) (c1 c2 : Nat → Int) :
    (latProbe bytes stride c1).perm = (latProbe bytes stride c2).perm ∧
      (latProbe bytes stride c1).derefs = (latProbe bytes stride c2).derefs ∧
      (latProbe bytes stride c1).perm.Nodup ∧
      (latProbe bytes stride c1).perm.length = latNodes bytes stride ∧
      (∀ x ∈ (latProbe bytes stride c1).perm, x < latNodes bytes stride) := by
  refine ⟨rfl, rfl, ?_, ?_, ?_⟩
  · exact List.Nodup.map
      (fun a b hab => (shuffledPerm latSeed (latNodes bytes stride)).injective
        (Fin.val_injective hab))
      (List.nodup_finRange _)
  · simp [latProbe, latPermList]
  · intro x hx
    simp only [latProbe, latPermList, List.mem_map] at hx
    obtain ⟨i, _, rfl⟩ := hx
    exact (shuffledPerm latSeed (latNodes bytes stride) i).isLt

end CacheBench
